import Mathlib

/-!
Shallow embedding of `cmenu` (src/cmenu.c), an interactive terminal
selection utility, together with theorems about its specification.

Conventions of the embedding:
* Bytes are `Nat` values in `[0, 255]`; C strings become `List Nat` of
  their bytes before the NUL terminator (C strings never contain NUL).
* The arena is a pair of cursors plus a byte-addressed memory function;
  `alloc` returns `none` on the fatal out-of-memory path.
* The interactive loop (`main`) becomes a state machine `run` over the
  list of bytes delivered by the terminal; blocking on an empty input
  list models waiting for the next keystroke.  Screen rendering is
  tracked as a draw counter (the visible side effect of `draw`).
-/

/-- MEMORY_MAX from the source: `1<<28`. -/
def MEMORY_MAX : Nat := 2 ^ 28

/-- PATTERN_MAX from the source: `1<<12`. -/
def PATTERN_MAX : Nat := 2 ^ 12

/-- The case-folding helper `xtolower`.  The C test
`(unsigned)c-'A' < 26` on a byte value `c` holds exactly when
`65 ≤ c < 91` (for `c < 'A'` the unsigned subtraction wraps around to a
huge value), and then the byte is shifted into lowercase. -/
def xtolower (c : Nat) : Nat :=
  if 65 ≤ c ∧ c < 91 then c + 32 else c

/-- The matcher `is_match`.  The C loop compares the raw pattern byte
with the case-folded candidate byte; if the pattern runs out first the
match succeeds, if the candidate runs out first (or any comparison
fails) it fails.  On byte lists this is exactly lockstep comparison:
`p = xtolower c` at each position until the pattern is exhausted. -/
def is_match : List Nat → List Nat → Bool
  | [], _ => true
  | _ :: _, [] => false
  | p :: ps, c :: cs => p == xtolower c && is_match ps cs

/-- Arena: `beg`/`end` cursors plus the byte stored at each address.
The C `char *` cursors become `Nat` addresses. -/
structure Arena where
  beg : Nat
  stop : Nat
  mem : Nat → Nat

/-- The bump allocator `alloc`.  `available = end - beg`; the request is
rejected (fatal, modelled as `none`) when `count > available / size`.
Otherwise the top cursor moves down by `size * count` and — per the
source comment "Given a non-zero count, the first item will be zeroed" —
`memset(ptr, 0, size)` zeroes only the first `size` bytes. -/
def alloc (a : Arena) (size count : Nat) : Option (Nat × Arena) :=
  let available := a.stop - a.beg
  if count > available / size then
    none
  else
    let ptr := a.stop - size * count
    some (ptr,
      { a with
        stop := ptr
        mem := fun addr =>
          if count ≠ 0 ∧ ptr ≤ addr ∧ addr < ptr + size then 0
          else a.mem addr })

/-- The delimiter set of `read_entries`: NUL, `'\n'`, `'\r'`. -/
def isDelim (c : Nat) : Bool := c == 0 || c == 10 || c == 13

/-- The second pass of `read_entries`: walk the buffer keeping the
current run (accumulated in reverse); each delimiter byte flushes a
non-empty run as one entry.  A trailing run without a delimiter is not
flushed (the source guarantees a trailing `'\n'`, see `read_entries`). -/
def chop (acc : List Nat) : List Nat → List (List Nat)
  | [] => []
  | c :: rest =>
    if isDelim c then
      if acc.isEmpty then chop [] rest
      else acc.reverse :: chop [] rest
    else chop (c :: acc) rest

/-- `read_entries`: the source appends one `'\n'` after the bytes read
from standard input, then chops the buffer into non-empty runs. -/
def read_entries (input : List Nat) : List (List Nat) :=
  chop [] (input ++ [10])

/-- The first pass of `read_entries`, counting non-empty runs to size
the `entries` and `matches` arrays. -/
def count_entries (entryLen : Nat) : List Nat → Nat
  | [] => 0
  | c :: rest =>
    if isDelim c then
      (if entryLen > 0 then 1 else 0) + count_entries 0 rest
    else count_entries (entryLen + 1) rest

/-- `set_selected_clamped`: `n < 0 ↦ 0`, `n ≥ matches_len ↦
matches_len - 1`, otherwise `n`.  With `matches_len = 0` the second arm
produces `-1`. -/
def set_selected_clamped (len : Nat) (n : Int) : Int :=
  if n < 0 then 0 else if (len : Int) ≤ n then (len : Int) - 1 else n

/-- `update_matches`: scan every entry index in order and keep those
whose entry matches the pattern.  (The lowercase `copy` that the C
function builds in scratch space is never read afterwards, so it has no
effect on the result.) -/
def update_matches (es : List (List Nat)) (pattern : List Nat) : List Nat :=
  (List.range es.length).filter fun i => is_match pattern (es.getD i [])

/-- The mutable state of the interactive loop: the pattern buffer
contents, the `matches` index list and the `selected` index (an `int`
in C, which does reach `-1`). -/
structure MState where
  pattern : List Nat
  matches_ : List Nat
  selected : Int
  deriving DecidableEq

/-- State effect of `draw`: recompute `matches` from the pattern, then
clamp `selected`.  (The rendering itself is tracked by the draw counter
in `run`.) -/
def draw (es : List (List Nat)) (s : MState) : MState :=
  let m := update_matches es s.pattern
  { s with matches_ := m, selected := set_selected_clamped m.length s.selected }

/-- `select_next` (bound to the Up arrow): decrement then clamp. -/
def select_next (s : MState) : MState :=
  { s with selected := set_selected_clamped s.matches_.length (s.selected - 1) }

/-- `select_prev` (bound to the Down arrow): increment then clamp. -/
def select_prev (s : MState) : MState :=
  { s with selected := set_selected_clamped s.matches_.length (s.selected + 1) }

/-- `ch_isvalid`: printable ASCII, space through tilde. -/
def ch_isvalid (c : Nat) : Bool := 32 ≤ c && c ≤ 126

/-- The state just before the initial `draw(term, entries, "", ...)`:
the `Entries` struct is allocated with `selected = 0`, `matches`
empty, and the pattern is the empty string. -/
def initState (es : List (List Nat)) : MState :=
  draw es { pattern := [], matches_ := [], selected := 0 }

/-- How a session ends: Enter with a non-empty match list, cancellation
(Ctrl-C, or Enter with no matches), or a fatal diagnostic via
`ERROR_EXIT`. -/
inductive ExitKind where
  | confirmed
  | cancelled
  | fatal (msg : String)
  deriving DecidableEq

/-- Result of running the loop on a finite byte list: either the loop
is blocked waiting for the next keystroke, or the process exited.
`exited` records the captured result (`entries[matches[selected]]`,
`none` when nothing was captured), the bytes written to standard
output, the exit status, and whether the terminal was still in raw
mode at the moment of exit. -/
inductive Outcome where
  | blocked (s : MState) (draws : Nat)
  | exited (kind : ExitKind) (result : Option (List Nat))
      (stdout : List Nat) (status : Nat) (rawAtExit : Bool)
  deriving DecidableEq

/-- The Enter-key lookup `entries->entries[entries->matches[selected]]`,
with both indexings made explicit as `Option` so that out-of-bounds
access is visible as `none`. -/
def confirmLookup (es : List (List Nat)) (s : MState) : Option (List Nat) :=
  if s.selected < 0 then none
  else
    match s.matches_.get? s.selected.toNat with
    | none => none
    | some i => es.get? i

/-- One pass of the interactive loop over the pending input bytes.
Each cons-cell consumed is one `getch`.  Branches follow the source:
Enter, Ctrl-C, Backspace, the escape prefix (which reads up to two more
bytes), printable bytes (append to the pattern, fatal when the new
length reaches `PATTERN_MAX - 1`), and ignored non-printable bytes
(`continue`, no redraw).  Every non-exiting branch except the ignored
one falls through to `draw`, incrementing the draw counter `d`. -/
def run (es : List (List Nat)) : MState → List Nat → Nat → Outcome
  | s, [], d => .blocked s d
  | s, c :: rest, d =>
    if c = 13 then
      if s.matches_.length > 0 then
        let r := confirmLookup es s
        .exited .confirmed r (r.getD []) 0 false
      else
        .exited .cancelled none [] 0 false
    else if c = 3 then
      .exited .cancelled none [] 0 false
    else if c = 127 then
      run es (draw es { s with pattern := s.pattern.dropLast }) rest (d + 1)
    else if c = 27 then
      match rest with
      | [] => .blocked s d
      | c2 :: rest2 =>
        if c2 = 91 then
          match rest2 with
          | [] => .blocked s d
          | c3 :: rest3 =>
            let s' := if c3 = 65 then select_next s
                      else if c3 = 66 then select_prev s
                      else s
            run es (draw es s') rest3 (d + 1)
        else
          run es (draw es s) rest2 (d + 1)
    else if ch_isvalid c then
      let p := s.pattern ++ [c]
      if p.length ≥ PATTERN_MAX - 1 then
        .exited (.fatal "pattern too long") none [] 1 true
      else
        run es (draw es { s with pattern := p }) rest (d + 1)
    else
      run es s rest d

/-- A whole session: the initial draw (draw counter starts at 1), then
the loop. -/
def cmRun (es : List (List Nat)) (input : List Nat) : Outcome :=
  run es (initState es) input 1

/-- Result of the one-byte `read` inside `getch`: `-1` (error), `0`
(end of file; the local `char r` keeps its indeterminate value), or one
byte. -/
inductive ReadResult where
  | err
  | eof
  | byte (b : Nat)
  deriving DecidableEq

/-- `getch`: fatal (`none`, the "tty input error" diagnostic) exactly
when `read` returned `-1`; otherwise return `r & 255`.  `junk` stands
for the indeterminate value of `r` when `read` returned `0`. -/
def getch (r : ReadResult) (junk : Nat) : Option Nat :=
  match r with
  | .err => none
  | .eof => some (junk % 256)
  | .byte b => some (b % 256)

/-- Spec-side matcher relation, following the claim's words: the
pattern, compared case-insensitively (ASCII letters folded to
lowercase, all other bytes as-is), equals the candidate
character-for-character at every position from 0 up to the pattern's
length. -/
def ci_lockstep_eq (p s : List Nat) : Prop :=
  p.length ≤ s.length ∧
    ∀ k, k < p.length → xtolower (p.getD k 0) = xtolower (s.getD k 0)

instance (p s : List Nat) : Decidable (ci_lockstep_eq p s) := by
  unfold ci_lockstep_eq; infer_instance

/-- Spec-side parse: the maximal non-empty runs of non-delimiter bytes,
in order.  `splitOnP` cuts the input at every delimiter; discarding the
empty chunks leaves exactly the maximal non-empty runs. -/
def maxRuns (l : List Nat) : List (List Nat) :=
  (l.splitOnP isDelim).filter fun r => !r.isEmpty

example : is_match [97, 98] [65, 66, 67] = true := by decide
example : is_match [97, 99] [65, 66, 67] = false := by decide
example : is_match [] [65] = true := by decide
example : is_match [65] [65] = false := by decide
example : ci_lockstep_eq [65] [65] := by decide
example : read_entries [97, 10, 10, 98, 13, 0, 99] = [[97], [98], [99]] := by decide
example : maxRuns [97, 10, 10, 98, 13, 0, 99] = [[97], [98], [99]] := by decide
example : read_entries [10, 13, 0] = [] := by decide
example : update_matches [[65, 112], [98, 97], [65, 118]] [97] = [0, 2] := by decide

/-! Basic lemmas about the components. -/

theorem set_selected_clamped_bounds (len : Nat) (n : Int) (h : 0 < len) :
    0 ≤ set_selected_clamped len n ∧ set_selected_clamped len n < (len : Int) := by
  unfold set_selected_clamped
  split_ifs <;> omega

theorem update_matches_pairwise (es : List (List Nat)) (p : List Nat) :
    (update_matches es p).Pairwise (· < ·) :=
  List.Pairwise.sublist (List.filter_sublist _) (List.pairwise_lt_range _)

theorem update_matches_mem_lt {es : List (List Nat)} {p : List Nat} {i : Nat}
    (h : i ∈ update_matches es p) : i < es.length := by
  unfold update_matches at h
  exact List.mem_range.1 (List.mem_of_mem_filter h)

theorem update_matches_length_le (es : List (List Nat)) (p : List Nat) :
    (update_matches es p).length ≤ es.length := by
  have h := List.Sublist.length_le
    (List.filter_sublist (p := fun i => is_match p (es.getD i [])) (List.range es.length))
  simpa [update_matches] using h

/-- Loop invariant: `matches` is exactly the recomputation from the
current pattern, and when it is non-empty `selected` is clamped into
range. -/
def goodState (es : List (List Nat)) (s : MState) : Prop :=
  s.matches_ = update_matches es s.pattern ∧
    (s.matches_ ≠ [] → 0 ≤ s.selected ∧ s.selected < (s.matches_.length : Int))

instance (es : List (List Nat)) (s : MState) : Decidable (goodState es s) := by
  unfold goodState
  infer_instance

@[simp] theorem draw_pattern (es : List (List Nat)) (s : MState) :
    (draw es s).pattern = s.pattern := rfl

theorem goodState_draw (es : List (List Nat)) (s : MState) :
    goodState es (draw es s) := by
  refine ⟨rfl, fun hne => ?_⟩
  have hlen : 0 < (update_matches es s.pattern).length := by
    have : (draw es s).matches_ = update_matches es s.pattern := rfl
    rw [List.length_pos]
    intro hnil
    exact hne (by simpa [draw] using hnil)
  simpa [draw] using set_selected_clamped_bounds _ s.selected hlen

theorem goodState_initState (es : List (List Nat)) :
    goodState es (initState es) := goodState_draw es _

theorem confirmLookup_isSome {es : List (List Nat)} {s : MState}
    (hg : goodState es s) (hne : s.matches_ ≠ []) :
    ∃ v, confirmLookup es s = some v := by
  obtain ⟨hm, hsel⟩ := hg
  obtain ⟨h0, hlt⟩ := hsel hne
  have hn : s.selected.toNat < s.matches_.length := by omega
  obtain ⟨i, hi_get⟩ : ∃ i, s.matches_.get? s.selected.toNat = some i :=
    ⟨_, List.get?_eq_get hn⟩
  have hmem : i ∈ s.matches_ := List.get?_mem hi_get
  rw [hm] at hmem
  have hi : i < es.length := update_matches_mem_lt hmem
  unfold confirmLookup
  rw [if_neg (by omega), hi_get]
  refine ⟨es.get ⟨i, hi⟩, ?_⟩
  show es.get? i = _
  rw [List.get?_eq_get hi]

/-! Unfolding lemmas for `run`, one per branch of the keystroke
dispatch. -/

theorem run_nil (es : List (List Nat)) (s : MState) (d : Nat) :
    run es s [] d = .blocked s d := rfl

theorem run_enter_pos {es : List (List Nat)} {s : MState} {rest : List Nat} {d : Nat}
    (h : 0 < s.matches_.length) :
    run es s (13 :: rest) d =
      .exited .confirmed (confirmLookup es s) ((confirmLookup es s).getD []) 0 false := by
  rw [run.eq_def]
  simp [h]

theorem run_enter_zero {es : List (List Nat)} {s : MState} {rest : List Nat} {d : Nat}
    (h : s.matches_.length = 0) :
    run es s (13 :: rest) d = .exited .cancelled none [] 0 false := by
  rw [run.eq_def]
  simp [h]

theorem run_ctrlc (es : List (List Nat)) (s : MState) (rest : List Nat) (d : Nat) :
    run es s (3 :: rest) d = .exited .cancelled none [] 0 false := by
  rw [run.eq_def]; rfl

theorem run_backspace (es : List (List Nat)) (s : MState) (rest : List Nat) (d : Nat) :
    run es s (127 :: rest) d =
      run es (draw es { s with pattern := s.pattern.dropLast }) rest (d + 1) := by
  rw [run.eq_def]; rfl

theorem run_esc_nil (es : List (List Nat)) (s : MState) (d : Nat) :
    run es s [27] d = .blocked s d := by
  rw [run.eq_def]; rfl

theorem run_esc_other {es : List (List Nat)} {s : MState} {c2 : Nat} {rest2 : List Nat}
    {d : Nat} (h : c2 ≠ 91) :
    run es s (27 :: c2 :: rest2) d = run es (draw es s) rest2 (d + 1) := by
  rw [run.eq_def]
  simp [h]

theorem run_esc_bracket_nil (es : List (List Nat)) (s : MState) (d : Nat) :
    run es s [27, 91] d = .blocked s d := by
  rw [run.eq_def]; rfl

theorem run_esc_seq (es : List (List Nat)) (s : MState) (c3 : Nat) (rest3 : List Nat)
    (d : Nat) :
    run es s (27 :: 91 :: c3 :: rest3) d =
      run es (draw es (if c3 = 65 then select_next s
                       else if c3 = 66 then select_prev s else s)) rest3 (d + 1) := by
  rw [run.eq_def]; rfl

theorem run_printable_ok {es : List (List Nat)} {s : MState} {c : Nat} {rest : List Nat}
    {d : Nat} (h : ch_isvalid c = true) (hlen : s.pattern.length < PATTERN_MAX - 2) :
    run es s (c :: rest) d =
      run es (draw es { s with pattern := s.pattern ++ [c] }) rest (d + 1) := by
  have hlen' : s.pattern.length < 4094 := by
    simpa [PATTERN_MAX] using hlen
  have h1 : 32 ≤ c ∧ c ≤ 126 := by simpa [ch_isvalid, Bool.and_eq_true] using h
  have e13 : ¬ c = 13 := by omega
  have e3 : ¬ c = 3 := by omega
  have e127 : ¬ c = 127 := by omega
  have e27 : ¬ c = 27 := by omega
  rw [run.eq_def]
  simp [h, e13, e3, e127, e27, PATTERN_MAX]
  intro hc
  exact absurd hc (by omega)

theorem run_printable_fatal {es : List (List Nat)} {s : MState} {c : Nat} {rest : List Nat}
    {d : Nat} (h : ch_isvalid c = true) (hlen : PATTERN_MAX - 2 ≤ s.pattern.length) :
    run es s (c :: rest) d = .exited (.fatal "pattern too long") none [] 1 true := by
  have hlen' : 4094 ≤ s.pattern.length := by
    simpa [PATTERN_MAX] using hlen
  have h1 : 32 ≤ c ∧ c ≤ 126 := by simpa [ch_isvalid, Bool.and_eq_true] using h
  have e13 : ¬ c = 13 := by omega
  have e3 : ¬ c = 3 := by omega
  have e127 : ¬ c = 127 := by omega
  have e27 : ¬ c = 27 := by omega
  rw [run.eq_def]
  simp [h, e13, e3, e127, e27, PATTERN_MAX]
  intro hc
  exact absurd hc (by omega)

theorem run_invalid {es : List (List Nat)} {s : MState} {c : Nat} {rest : List Nat}
    {d : Nat} (h : ch_isvalid c = false) (h13 : c ≠ 13) (h3 : c ≠ 3) (h127 : c ≠ 127)
    (h27 : c ≠ 27) :
    run es s (c :: rest) d = run es s rest d := by
  rw [run.eq_def]
  simp [h, h13, h3, h127, h27]

/-- Classification of a single input byte according to the dispatch in
`main`: used to drive the case analysis in the invariant proof. -/
theorem byte_cases (c : Nat) :
    c = 13 ∨ c = 3 ∨ c = 127 ∨ c = 27 ∨ ch_isvalid c = true ∨
      (ch_isvalid c = false ∧ c ≠ 13 ∧ c ≠ 3 ∧ c ≠ 127 ∧ c ≠ 27) := by
  by_cases h13 : c = 13
  · exact Or.inl h13
  by_cases h3 : c = 3
  · exact Or.inr (Or.inl h3)
  by_cases h127 : c = 127
  · exact Or.inr (Or.inr (Or.inl h127))
  by_cases h27 : c = 27
  · exact Or.inr (Or.inr (Or.inr (Or.inl h27)))
  by_cases hv : ch_isvalid c = true
  · exact Or.inr (Or.inr (Or.inr (Or.inr (Or.inl hv))))
  · exact Or.inr (Or.inr (Or.inr (Or.inr (Or.inr
      ⟨by simpa using hv, h13, h3, h127, h27⟩))))

/-- Master invariant of the loop: starting from a good state, every
blocked state is good again, every confirmed exit carries the looked-up
entry (written verbatim to standard output, status 0, cooked mode), and
every cancelled exit writes nothing (status 0, cooked mode). -/
theorem run_inv (es : List (List Nat)) : ∀ (n : Nat) (input : List Nat),
    input.length ≤ n → ∀ (s : MState) (d : Nat), goodState es s →
    (∀ s' d', run es s input d = .blocked s' d' → goodState es s') ∧
    (∀ r out st b, run es s input d = .exited .confirmed r out st b →
        (∃ v, r = some v ∧ out = v) ∧ st = 0 ∧ b = false) ∧
    (∀ r out st b, run es s input d = .exited .cancelled r out st b →
        r = none ∧ out = [] ∧ st = 0 ∧ b = false) := by
  intro n
  induction n with
  | zero =>
    intro input hlen s d hg
    have hnil : input = [] := List.length_eq_zero.1 (Nat.le_zero.1 hlen)
    subst hnil
    rw [run_nil]
    refine ⟨?_, ?_, ?_⟩
    · intro s' d' h
      cases h
      exact hg
    · intro r out st b h
      cases h
    · intro r out st b h
      cases h
  | succ n ih =>
    intro input hlen s d hg
    match input with
    | [] =>
      rw [run_nil]
      refine ⟨?_, ?_, ?_⟩
      · intro s' d' h
        cases h
        exact hg
      · intro r out st b h
        cases h
      · intro r out st b h
        cases h
    | c :: rest =>
      have hrest : rest.length ≤ n := by
        simp at hlen
        omega
      rcases byte_cases c with h13 | h3 | h127 | h27 | hv | hinv
      · -- Enter
        subst h13
        by_cases hm : 0 < s.matches_.length
        · rw [run_enter_pos hm]
          have hne : s.matches_ ≠ [] := by
            intro hnil
            rw [hnil] at hm
            exact absurd hm (by simp)
          obtain ⟨v, hvv⟩ := confirmLookup_isSome hg hne
          refine ⟨?_, ?_, ?_⟩
          · intro s' d' h
            cases h
          · intro r out st b h
            injection h with hk hr hout hst hb
            subst hr hout hst hb
            exact ⟨⟨v, hvv, by rw [hvv]; rfl⟩, rfl, rfl⟩
          · intro r out st b h
            injection h with hk hr hout hst hb
            cases hk
        · rw [run_enter_zero (by omega)]
          refine ⟨?_, ?_, ?_⟩
          · intro s' d' h
            cases h
          · intro r out st b h
            injection h with hk hr hout hst hb
            cases hk
          · intro r out st b h
            injection h with hk hr hout hst hb
            subst hr hout hst hb
            exact ⟨rfl, rfl, rfl, rfl⟩
      · -- Ctrl-C
        subst h3
        rw [run_ctrlc]
        refine ⟨?_, ?_, ?_⟩
        · intro s' d' h
          cases h
        · intro r out st b h
          injection h with hk hr hout hst hb
          cases hk
        · intro r out st b h
          injection h with hk hr hout hst hb
          subst hr hout hst hb
          exact ⟨rfl, rfl, rfl, rfl⟩
      · -- Backspace
        subst h127
        rw [run_backspace]
        exact ih rest hrest _ (d + 1) (goodState_draw es _)
      · -- Escape
        subst h27
        match rest with
        | [] =>
          rw [run_esc_nil]
          refine ⟨?_, ?_, ?_⟩
          · intro s' d' h
            cases h
            exact hg
          · intro r out st b h
            cases h
          · intro r out st b h
            cases h
        | c2 :: rest2 =>
          have hrest2 : rest2.length ≤ n := by
            simp at hlen
            omega
          by_cases h91 : c2 = 91
          · subst h91
            match rest2 with
            | [] =>
              rw [run_esc_bracket_nil]
              refine ⟨?_, ?_, ?_⟩
              · intro s' d' h
                cases h
                exact hg
              · intro r out st b h
                cases h
              · intro r out st b h
                cases h
            | c3 :: rest3 =>
              have hrest3 : rest3.length ≤ n := by
                simp at hlen
                omega
              rw [run_esc_seq]
              exact ih rest3 hrest3 _ (d + 1) (goodState_draw es _)
          · rw [run_esc_other h91]
            exact ih rest2 hrest2 _ (d + 1) (goodState_draw es _)
      · -- printable
        by_cases hlong : s.pattern.length < PATTERN_MAX - 2
        · rw [run_printable_ok hv hlong]
          exact ih rest hrest _ (d + 1) (goodState_draw es _)
        · rw [run_printable_fatal hv (by omega)]
          refine ⟨?_, ?_, ?_⟩
          · intro s' d' h
            cases h
          · intro r out st b h
            injection h with hk hr hout hst hb
            cases hk
          · intro r out st b h
            injection h with hk hr hout hst hb
            cases hk
      · -- ignored byte
        obtain ⟨hv2, h13, h3, h127, h27⟩ := hinv
        rw [run_invalid hv2 h13 h3 h127 h27]
        exact ih rest hrest s d hg

/-- Characterization of `is_match`: the raw pattern byte must equal the
case-folded candidate byte at every position, and the candidate must be
at least as long as the pattern.  Note the asymmetry: only the
candidate side is folded. -/
theorem is_match_iff (p s : List Nat) :
    is_match p s = true ↔
      (p.length ≤ s.length ∧
        ∀ k, k < p.length → p.getD k 0 = xtolower (s.getD k 0)) := by
  induction p generalizing s with
  | nil => simp [is_match]
  | cons a ps ih =>
    cases s with
    | nil => simp [is_match]
    | cons b bs =>
      simp only [is_match, Bool.and_eq_true, beq_iff_eq, ih, List.length_cons]
      constructor
      · rintro ⟨h1, h2, h3⟩
        refine ⟨by omega, ?_⟩
        intro k hk
        cases k with
        | zero => simpa using h1
        | succ k => simpa using h3 k (by omega)
      · rintro ⟨h1, h2⟩
        exact ⟨by simpa using h2 0 (by omega), by omega,
          fun k hk => by simpa using h2 (k + 1) (by omega)⟩

theorem modifyHead_comp {α : Type} (f g : List α → List α) (L : List (List α)) :
    (L.modifyHead g).modifyHead f = L.modifyHead fun x => f (g x) := by
  cases L <;> simp

theorem modifyHead_nil_append {α : Type} (L : List (List α)) :
    (L.modifyHead fun x => [] ++ x) = L := by
  cases L <;> simp

theorem modifyHead_id {α : Type} (L : List α) :
    (L.modifyHead fun x => x) = L := by
  cases L <;> simp

/-- Relation between the chopping pass and `splitOnP`: chopping `l`
followed by a trailing newline, with `acc` (reversed) pending, yields
the non-empty chunks of `splitOnP` with `acc.reverse` prepended to the
first chunk. -/
theorem chop_eq_splitOnP (l : List Nat) : ∀ acc : List Nat,
    chop acc (l ++ [10]) =
      ((l.splitOnP isDelim).modifyHead (acc.reverse ++ ·)).filter
        (fun r => !r.isEmpty) := by
  induction l with
  | nil =>
    intro acc
    show chop acc [10] = _
    rw [List.splitOnP_nil]
    by_cases h : acc = []
    · subst h
      simp [chop, isDelim]
    · simp [chop, isDelim, h, List.isEmpty_iff]
  | cons c l ih =>
    intro acc
    show chop acc (c :: (l ++ [10])) = _
    rw [List.splitOnP_cons]
    by_cases hd : isDelim c
    · rw [if_pos hd]
      show (if isDelim c then _ else _) = _
      rw [if_pos hd]
      by_cases h : acc = []
      · subst h
        simp only [List.isEmpty_nil, if_pos rfl]
        rw [ih []]
        simp [List.filter_cons, modifyHead_id]
      · rw [if_neg (by simpa [List.isEmpty_iff] using h)]
        rw [ih []]
        simp only [List.reverse_nil, modifyHead_nil_append, List.modifyHead_cons,
          List.filter_cons]
        have : (!(acc.reverse ++ []).isEmpty) = true := by
          simp [List.isEmpty_iff, h]
        rw [List.append_nil] at this ⊢
        rw [if_pos (by simpa [List.isEmpty_iff] using h)]
    · rw [if_neg hd]
      show (if isDelim c then _ else _) = _
      rw [if_neg hd]
      rw [ih (c :: acc), modifyHead_comp]
      have hfun : (fun x : List Nat => (c :: acc).reverse ++ x)
          = fun x : List Nat => acc.reverse ++ (c :: x) := by
        funext x
        simp
      rw [hfun]

/-- The parse equals the spec-side maximal non-empty runs. -/
theorem read_entries_eq_maxRuns (input : List Nat) :
    read_entries input = maxRuns input := by
  unfold read_entries maxRuns
  rw [chop_eq_splitOnP input []]
  simp only [List.reverse_nil]
  rw [show (fun x : List Nat => [] ++ x) = fun x : List Nat => x from by funext x; simp,
    modifyHead_id]

/-- Delimiter-only (or empty) input produces no entries. -/
theorem maxRuns_all_delim : ∀ input : List Nat,
    (∀ c ∈ input, isDelim c = true) → maxRuns input = [] := by
  intro input
  induction input with
  | nil =>
    intro _
    simp [maxRuns, List.splitOnP_nil]
  | cons c rest ih =>
    intro h
    have hrec := ih fun x hx => h x (by simp [hx])
    unfold maxRuns at hrec ⊢
    rw [List.splitOnP_cons, if_pos (h c (by simp))]
    simpa [List.filter_cons] using hrec

/-- The two passes of `read_entries` agree: the counting pass sizes the
arrays with exactly the number of entries the chopping pass records. -/
theorem count_entries_eq_chop_length : ∀ (l : List Nat) (acc : List Nat),
    count_entries acc.length l = (chop acc l).length := by
  intro l
  induction l with
  | nil => intro acc; rfl
  | cons c rest ih =>
    intro acc
    show count_entries acc.length (c :: rest) = (chop acc (c :: rest)).length
    unfold count_entries chop
    by_cases hd : isDelim c
    · rw [if_pos hd, if_pos hd]
      have h0 := ih []
      simp only [List.length_nil] at h0
      by_cases h : acc = []
      · subst h
        simpa using h0
      · have hne : acc.isEmpty = false := by simp [List.isEmpty_iff, h]
        have hlen : acc.length > 0 := List.length_pos.2 h
        rw [if_pos hlen, hne]
        simp [h0]
        omega
    · rw [if_neg hd, if_neg hd]
      have := ih (c :: acc)
      simpa using this

/-- Feeding printable bytes one by one: as long as the pattern stays
below the effective limit `PATTERN_MAX - 2`, the loop keeps appending
to the pattern and redrawing. -/
theorem run_typing (es : List (List Nat)) : ∀ (cs : List Nat) (s : MState)
    (rest : List Nat) (d : Nat),
    (∀ c ∈ cs, ch_isvalid c = true) →
    s.pattern.length + cs.length ≤ PATTERN_MAX - 2 →
    ∃ s' d', run es s (cs ++ rest) d = run es s' rest d' ∧
      s'.pattern = s.pattern ++ cs := by
  intro cs
  induction cs with
  | nil =>
    intro s rest d _ _
    exact ⟨s, d, rfl, by simp⟩
  | cons c cs ih =>
    intro s rest d hval hlen
    have hc := hval c (by simp)
    rw [List.cons_append, run_printable_ok hc (by simp [PATTERN_MAX] at hlen ⊢; omega)]
    obtain ⟨s', d', heq, hp⟩ := ih (draw es { s with pattern := s.pattern ++ [c] })
      (rest) (d + 1) (fun x hx => hval x (by simp [hx]))
      (by simpa [PATTERN_MAX] using (by simp [PATTERN_MAX] at hlen; omega :
        s.pattern.length + 1 + cs.length ≤ 4094))
    refine ⟨s', d', heq, ?_⟩
    rw [hp]
    simp

/-! Claim theorems. -/

/-- C1 counterexample: the claim says `is_match` agrees with
case-insensitive lockstep comparison (both sides folded), but the
pattern byte `'A'` is never folded, so the pattern `"A"` fails against
the candidate `"A"` even though the two are case-insensitively equal. -/
theorem C1_counterexample :
    ¬ (is_match [65] [65] = true ↔ ci_lockstep_eq [65] [65]) := by
  decide

/-- C1 (amended): `is_match pattern candidate` is true iff the
candidate is at least as long as the pattern and, at every position
below the pattern's length, the raw pattern byte equals the
ASCII-lowercase-folded candidate byte — only the candidate side is
case-folded.  In particular the empty pattern matches everything,
`match("ab", "ABC")` is true and `match("ac", "ABC")` is false. -/
theorem C1_matcher_lockstep (p s : List Nat) :
    (is_match p s = true ↔
      (p.length ≤ s.length ∧
        ∀ k, k < p.length → p.getD k 0 = xtolower (s.getD k 0))) ∧
    is_match [] s = true ∧
    is_match [97, 98] [65, 66, 67] = true ∧
    is_match [97, 99] [65, 66, 67] = false :=
  ⟨is_match_iff p s, rfl, by decide, by decide⟩

/-- C2 counterexample: allocating two one-byte items from an arena
whose memory holds 1 everywhere moves the cursor from 10 to 8, but only
the first item (byte 8) is zeroed; byte 9 of the returned storage still
holds 1, so not all `size*count` bytes are zero-initialized. -/
theorem C2_counterexample :
    ∃ a2 : Arena, alloc ⟨0, 10, fun _ => 1⟩ 1 2 = some (8, a2) ∧
      a2.stop = 8 ∧ a2.mem 8 = 0 ∧ a2.mem 9 ≠ 0 :=
  ⟨_, rfl, rfl, rfl, by decide⟩

/-- C2 (amended): for `size > 0` and `count > 0` passing the capacity
check, `alloc` moves the top cursor down by exactly `size * count` and
returns storage whose **first item** (`size` bytes) is zero-initialized;
bytes outside the zeroed first item keep their previous contents. -/
theorem C2_alloc_first_item_zeroed (a : Arena) (size count : Nat)
    (hsize : 0 < size) (hcount : 0 < count) (hle : a.beg ≤ a.stop)
    (hcap : count ≤ (a.stop - a.beg) / size) :
    ∃ a2 : Arena, alloc a size count = some (a.stop - size * count, a2) ∧
      a2.stop = a.stop - size * count ∧ a2.beg = a.beg ∧
      (∀ k, k < size → a2.mem (a.stop - size * count + k) = 0) ∧
      (∀ addr, addr < a.stop - size * count ∨ a.stop - size * count + size ≤ addr →
        a2.mem addr = a.mem addr) := by
  unfold alloc
  rw [if_neg (by omega)]
  refine ⟨_, rfl, rfl, rfl, ?_, ?_⟩
  · intro k hk
    show (if count ≠ 0 ∧ a.stop - size * count ≤ a.stop - size * count + k ∧
        a.stop - size * count + k < a.stop - size * count + size then 0
      else a.mem (a.stop - size * count + k)) = 0
    rw [if_pos ⟨by omega, by omega, by omega⟩]
  · intro addr haddr
    show (if count ≠ 0 ∧ a.stop - size * count ≤ addr ∧
        addr < a.stop - size * count + size then 0
      else a.mem addr) = a.mem addr
    rw [if_neg (by omega)]

/-- C2 witness: the amended claim evaluated on a concrete arena. -/
theorem C2_alloc_witness :
    ∃ a2 : Arena, alloc ⟨0, 10, fun _ => 1⟩ 1 2 = some (10 - 1 * 2, a2) ∧
      a2.stop = 10 - 1 * 2 ∧ a2.beg = 0 ∧
      (∀ k, k < 1 → a2.mem (10 - 1 * 2 + k) = 0) ∧
      (∀ addr, addr < 10 - 1 * 2 ∨ 10 - 1 * 2 + 1 ≤ addr →
        a2.mem addr = (Arena.mk 0 10 fun _ => 1).mem addr) :=
  C2_alloc_first_item_zeroed ⟨0, 10, fun _ => 1⟩ 1 2 (by decide) (by decide)
    (by decide) (by decide)

/-- C3: evaluating the code on the pattern-overflow path.  Typing 4095
printable bytes from startup reaches `ERROR_EXIT("pattern too long")`
inside the raw-mode loop: the process exits with status 1 while the
terminal is still in raw mode (`rawAtExit = true`), i.e. WITHOUT
restoring the attributes captured at startup — the claim's "restored on
every forced/fatal termination" fails on this path. -/
theorem C3_fatal_exits_in_raw_mode :
    cmRun [] (List.replicate (PATTERN_MAX - 1) 97) =
      .exited (.fatal "pattern too long") none [] 1 true := by
  have hsplit : List.replicate (PATTERN_MAX - 1) 97 =
      List.replicate (PATTERN_MAX - 2) 97 ++ [97] := by
    rw [← List.replicate_succ']
    norm_num [PATTERN_MAX]
  rw [cmRun, hsplit]
  obtain ⟨s', d', heq, hp⟩ := run_typing [] (List.replicate (PATTERN_MAX - 2) 97)
    (initState []) [97] 1
    (fun c hc => by rw [List.eq_of_mem_replicate hc]; rfl)
    (by simp [initState])
  rw [heq]
  exact run_printable_fatal (by decide) (by rw [hp]; simp [initState])

/-- C4 counterexample: from the reachable state after typing `'a'`
against the single entry `"b"` (pattern `"a"`, no matches, `selected =
-1`), the ignored escape sequence `ESC 'x'` does NOT leave everything
unchanged: the loop falls through to the redraw (draw count 2 → 3) and
the re-clamp flips `selected` from `-1` to `0`. -/
theorem C4_counterexample :
    cmRun [[98]] [97] = .blocked ⟨[97], [], -1⟩ 2 ∧
    cmRun [[98]] [97, 27, 120] = .blocked ⟨[97], [], 0⟩ 3 ∧
    (0 : Int) ≠ -1 ∧ (3 : Nat) ≠ 2 := by
  refine ⟨by decide, by decide, by decide, by decide⟩

/-- C4 (amended): an escape byte followed by a byte other than `'['`,
or by `'['` and a non-arrow byte, consumes those bytes and leaves the
pattern (and, in good states, the matches) unchanged — but it is not
silently dropped: the loop falls through to the redraw, which clears
and repaints the screen and re-clamps `selected` (observable when
`matches` is empty, where re-clamping turns `-1` into `0`). -/
theorem C4_escape_ignored_but_redrawn (es : List (List Nat)) (s : MState)
    (rest : List Nat) (d : Nat) (c2 c3 : Nat) :
    (c2 ≠ 91 → run es s (27 :: c2 :: rest) d = run es (draw es s) rest (d + 1)) ∧
    (c3 ≠ 65 → c3 ≠ 66 →
      run es s (27 :: 91 :: c3 :: rest) d = run es (draw es s) rest (d + 1)) ∧
    (draw es s).pattern = s.pattern ∧
    (goodState es s → (draw es s).matches_ = s.matches_) := by
  refine ⟨fun h => run_esc_other h, fun h65 h66 => ?_, rfl, fun hg => ?_⟩
  · rw [run_esc_seq]
    simp [h65, h66]
  · exact hg.1.symm

/-- C4 witness: the amended claim evaluated at the counterexample's
state and bytes. -/
theorem C4_escape_witness :
    run [[98]] ⟨[97], [], -1⟩ [27, 120] 0 =
      run [[98]] (draw [[98]] ⟨[97], [], -1⟩) [] 1 ∧
    run [[98]] ⟨[97], [], -1⟩ [27, 91, 120] 0 =
      run [[98]] (draw [[98]] ⟨[97], [], -1⟩) [] 1 ∧
    (draw [[98]] ⟨[97], [], -1⟩).matches_ = [] :=
  ⟨(C4_escape_ignored_but_redrawn [[98]] ⟨[97], [], -1⟩ [] 0 120 120).1 (by decide),
   (C4_escape_ignored_but_redrawn [[98]] ⟨[97], [], -1⟩ [] 0 120 120).2.1
     (by decide) (by decide),
   (C4_escape_ignored_but_redrawn [[98]] ⟨[97], [], -1⟩ [] 0 120 120).2.2.2
     (by decide)⟩

/-- C5: the parsed entries are exactly the maximal non-empty runs
between delimiter bytes (NUL, LF, CR), in input order (the full list
equality gives both the count and the order); both passes of
`read_entries` agree on the count; and input that is empty or all
delimiters yields zero entries. -/
theorem C5_entries_are_runs :
    (∀ input : List Nat,
        read_entries input = maxRuns input ∧
        count_entries 0 (input ++ [10]) = (read_entries input).length) ∧
    (∀ input : List Nat, (∀ c ∈ input, isDelim c = true) →
        read_entries input = []) := by
  constructor
  · intro input
    refine ⟨read_entries_eq_maxRuns input, ?_⟩
    have h := count_entries_eq_chop_length (input ++ [10]) []
    simpa [read_entries] using h
  · intro input h
    rw [read_entries_eq_maxRuns]
    exact maxRuns_all_delim input h

/-- C5 witness: delimiter-only and empty inputs yield no entries. -/
theorem C5_entries_witness :
    read_entries [10, 13, 0] = [] ∧ read_entries [] = [] :=
  ⟨C5_entries_are_runs.2 [10, 13, 0] (by decide),
   C5_entries_are_runs.2 [] (by decide)⟩

/-- C6: every recomputation produces a strictly increasing list of
indices below `entries_len` (hence at most `entries_len` of them, in
original relative order), and in every state where the loop waits for
the next keystroke, non-empty `matches` implies `selected` lies in
`[0, matches_len - 1]`. -/
theorem C6_matches_invariant :
    (∀ (es : List (List Nat)) (p : List Nat),
        (update_matches es p).Pairwise (· < ·) ∧
        (∀ i ∈ update_matches es p, i < es.length) ∧
        (update_matches es p).length ≤ es.length) ∧
    (∀ (es : List (List Nat)) (input : List Nat) (s : MState) (d : Nat),
        cmRun es input = .blocked s d →
        s.matches_.Pairwise (· < ·) ∧
        (∀ i ∈ s.matches_, i < es.length) ∧
        s.matches_.length ≤ es.length ∧
        (s.matches_ ≠ [] → 0 ≤ s.selected ∧
          s.selected < (s.matches_.length : Int))) := by
  constructor
  · intro es p
    exact ⟨update_matches_pairwise es p, fun i hi => update_matches_mem_lt hi,
      update_matches_length_le es p⟩
  · intro es input s d h
    obtain ⟨hm, hsel⟩ :=
      (run_inv es input.length input le_rfl _ 1 (goodState_initState es)).1 s d h
    have h1 : s.matches_.Pairwise (· < ·) := by
      rw [hm]; exact update_matches_pairwise _ _
    have h2 : ∀ i ∈ s.matches_, i < es.length := by
      rw [hm]; exact fun i hi => update_matches_mem_lt hi
    have h3 : s.matches_.length ≤ es.length := by
      rw [hm]; exact update_matches_length_le _ _
    exact ⟨h1, h2, h3, hsel⟩

/-- C6 witness: the invariant at the initial state of a one-entry
session. -/
theorem C6_matches_witness :
    (initState [[97]]).matches_.Pairwise (· < ·) ∧
    (∀ i ∈ (initState [[97]]).matches_, i < ([[97]] : List (List Nat)).length) ∧
    (initState [[97]]).matches_.length ≤ ([[97]] : List (List Nat)).length ∧
    ((initState [[97]]).matches_ ≠ [] → 0 ≤ (initState [[97]]).selected ∧
      (initState [[97]]).selected < ((initState [[97]]).matches_.length : Int)) :=
  C6_matches_invariant.2 [[97]] [] (initState [[97]]) 1 rfl

/-- C7: with the effective limit `PATTERN_MAX - 2` (the append happens
before the length check, which fires at `PATTERN_MAX - 1`), typing any
printable bytes up to the limit leaves the loop blocked on the next
keystroke with the pattern fully accumulated, and one more printable
byte exits through the fatal "pattern too long" diagnostic with the
nonzero status 1. -/
theorem C7_pattern_length_limit (es : List (List Nat)) (cs : List Nat)
    (hval : ∀ c ∈ cs, ch_isvalid c = true) :
    (cs.length ≤ PATTERN_MAX - 2 →
      ∃ s' d', cmRun es cs = .blocked s' d' ∧ s'.pattern = cs) ∧
    (cs.length = PATTERN_MAX - 2 → ∀ c, ch_isvalid c = true →
      cmRun es (cs ++ [c]) =
        .exited (.fatal "pattern too long") none [] 1 true) := by
  constructor
  · intro hlen
    obtain ⟨s', d', heq, hp⟩ := run_typing es cs (initState es) [] 1 hval
      (by simpa [initState] using hlen)
    rw [List.append_nil] at heq
    refine ⟨s', d', ?_, by simpa [initState] using hp⟩
    rw [cmRun, heq, run_nil]
  · intro hlen c hc
    obtain ⟨s', d', heq, hp⟩ := run_typing es cs (initState es) [c] 1 hval
      (by simp [initState]; omega)
    rw [cmRun, heq]
    refine run_printable_fatal hc ?_
    rw [hp]
    simp [initState]
    omega

/-- C7 witness: a maximal-length pattern of `'a'` bytes, then one more. -/
theorem C7_pattern_witness :
    (∃ s' d', cmRun [] (List.replicate (PATTERN_MAX - 2) 97) = .blocked s' d' ∧
      s'.pattern = List.replicate (PATTERN_MAX - 2) 97) ∧
    cmRun [] (List.replicate (PATTERN_MAX - 2) 97 ++ [97]) =
      .exited (.fatal "pattern too long") none [] 1 true := by
  have hval : ∀ c ∈ List.replicate (PATTERN_MAX - 2) 97, ch_isvalid c = true := by
    intro c hc
    rw [List.eq_of_mem_replicate hc]
    rfl
  exact ⟨(C7_pattern_length_limit [] _ hval).1 (by simp),
    (C7_pattern_length_limit [] _ hval).2 (by simp) 97 rfl⟩

/-- C8: a session ending in Confirmed writes exactly the captured
entry's bytes to standard output and exits with status 0; a session
ending in Cancelled (Ctrl-C, or Enter with no matches) writes nothing
and also exits with status 0. -/
theorem C8_output_and_status (es : List (List Nat)) (input : List Nat)
    (k : ExitKind) (r : Option (List Nat)) (out : List Nat) (st : Nat) (b : Bool)
    (h : cmRun es input = .exited k r out st b) :
    (k = .confirmed → (∃ v, r = some v ∧ out = v) ∧ st = 0) ∧
    (k = .cancelled → r = none ∧ out = [] ∧ st = 0) := by
  have hinv := run_inv es input.length input le_rfl (initState es) 1
    (goodState_initState es)
  constructor
  · intro hk
    subst hk
    obtain ⟨hv, hst, hb⟩ := hinv.2.1 r out st b h
    exact ⟨hv, hst⟩
  · intro hk
    subst hk
    obtain ⟨hr, hout, hst, hb⟩ := hinv.2.2 r out st b h
    exact ⟨hr, hout, hst⟩

/-- C8 witness: a confirmed session over one entry writes that entry. -/
theorem C8_output_witness :
    ((.confirmed : ExitKind) = .confirmed →
      (∃ v, (some [97] : Option (List Nat)) = some v ∧ [97] = v) ∧ (0 : Nat) = 0) ∧
    ((.confirmed : ExitKind) = .cancelled →
      (some [97] : Option (List Nat)) = none ∧ [97] = ([] : List Nat) ∧ (0 : Nat) = 0) :=
  C8_output_and_status [[97]] [13] .confirmed (some [97]) [97] 0 false rfl

/-- C9: on every Confirmed exit reachable from the initial draw, the
`Option`-returning lookup `entries[matches[selected]]` succeeded — the
captured result is `some` entry, never `none`. -/
theorem C9_confirm_lookup_in_bounds (es : List (List Nat)) (input : List Nat)
    (r : Option (List Nat)) (out : List Nat) (st : Nat) (b : Bool)
    (h : cmRun es input = .exited .confirmed r out st b) :
    ∃ v, r = some v := by
  obtain ⟨⟨v, hv, _⟩, _, _⟩ :=
    (run_inv es input.length input le_rfl _ 1 (goodState_initState es)).2.1
      r out st b h
  exact ⟨v, hv⟩

/-- C9 witness: Enter on a session over one entry. -/
theorem C9_confirm_witness : ∃ v, (some [98] : Option (List Nat)) = some v :=
  C9_confirm_lookup_in_bounds [[98]] [13] (some [98]) [98] 0 false rfl

/-- C10: `getch` hits the fatal "tty input error" diagnostic exactly
when the one-byte `read` returns `-1`; a zero-byte read (end of file on
the terminal) is not an error, and `getch` returns normally with the
masked value of its (indeterminate) local byte. -/
theorem C10_getch_error_only_on_read_failure (r : ReadResult) (junk : Nat) :
    (getch r junk = none ↔ r = .err) ∧ getch .eof junk = some (junk % 256) := by
  refine ⟨?_, rfl⟩
  cases r <;> simp [getch]
